import Mathlib

/-!
Shallow embedding of the sentiment-analysis dashboard `app2.py`
(repository Respuestas_y_citas_tweets).

Strings are modelled as `List Char` with ASCII semantics for
`strip`/`upper`/`isdigit`.  Nullable dataframe cells are `Option (List Char)`
(`none` = NaN/None).  The outcome of one remote Gemini call is
`Option (Option (List Char))`: `none` = the call raised, `some none` =
`resp.text` was `None`, `some (some s)` = `resp.text` was the string `s`.
-/

/-- Python `str.strip()` (ASCII whitespace). -/
def pyStrip (s : List Char) : List Char :=
  ((s.dropWhile Char.isWhitespace).reverse.dropWhile Char.isWhitespace).reverse

/-- Python `str.upper()` (ASCII, character-wise). -/
def pyUpper (s : List Char) : List Char :=
  s.map Char.toUpper

/-- Python `str.isdigit()` (ASCII): non-empty and all digits. -/
def pyIsdigit (s : List Char) : Bool :=
  !s.isEmpty && s.all Char.isDigit

/-- The default label `"NEUTRO"` of `app2.py` (the spec calls it NEUTRAL). -/
def NEUTRO : List Char := "NEUTRO".data

/-- The label `"POSITIVO"` (the spec calls it POSITIVE). -/
def POSITIVO : List Char := "POSITIVO".data

/-- The label `"NEGATIVO"` (the spec calls it NEGATIVE). -/
def NEGATIVO : List Char := "NEGATIVO".data

/-- `clasificar_tweet` (app2.py:226-239).
`model` is whether a Gemini model handle is configured; `texto` is the
input cell (`none` = not a string / NaN); `resp` is the outcome of
`model.generate_content` as described in the module docstring.
Source:
`if not model or not isinstance(texto, str) or not texto.strip(): return "NEUTRO"`
then `return (resp.text or "").strip().upper()[:8] or "NEUTRO"`,
with the call wrapped in `try/except` returning `"NEUTRO"`. -/
def clasificar_tweet (model : Bool) (texto : Option (List Char))
    (resp : Option (Option (List Char))) : List Char :=
  if !model then NEUTRO
  else
    match texto with
    | none => NEUTRO
    | some t =>
      if (pyStrip t).isEmpty then NEUTRO
      else
        match resp with
        | none => NEUTRO
        | some rtext =>
          let raw : List Char := match rtext with
            | none => []
            | some s => s
          let lab := ((pyUpper (pyStrip raw)).take 8)
          if lab.isEmpty then NEUTRO else lab

/-- Helper for `tweets_validos`: the list comprehension
`[(i, t) for i, t in enumerate(col) if pd.notna(t) and str(t).strip()]`
(app2.py:326), with `i` starting at the given offset. -/
def tweets_validos_aux : Nat → List (Option (List Char)) → List (Nat × List Char)
  | _, [] => []
  | i, none :: ts => tweets_validos_aux (i + 1) ts
  | i, some t :: ts =>
    if (pyStrip t).isEmpty then tweets_validos_aux (i + 1) ts
    else (i, t) :: tweets_validos_aux (i + 1) ts

/-- The eligible items `tweets_validos` of app2.py:324-326: index/text pairs
of the non-null, non-whitespace cells of the `text` column. -/
def tweets_validos (texts : List (Option (List Char))) : List (Nat × List Char) :=
  tweets_validos_aux 0 texts

/-- Outcome of one dispatched unit as observed at `f.result()`
(app2.py:340-343): a raised exception (`none`) is mapped to `"NEUTRO"`. -/
def outcomeLabel (o : Option (List Char)) : List Char :=
  match o with
  | some l => l
  | none => NEUTRO

/-- The completion loop in its generic form: one index-addressed write
`resultados_sent[idx] = ...` (app2.py:341/343) per completed unit. -/
def writeLoop (g : Nat × List Char → List Char)
    (order : List (Nat × List Char)) (init : List (List Char)) :
    List (List Char) :=
  order.foldl (fun acc p => acc.set p.1 (g p)) init

/-- The batch classification loop of app2.py:322-346.
`classify i t` is the outcome of the unit submitted for eligible item
`(i, t)` (`none` = `f.result()` raised).  `order` is the order in which
`as_completed` yields the units; the caller is expected to pass a
permutation of `tweets_validos texts`.  Starts from
`resultados_sent = ["NEUTRO"] * len(df_todos)` (app2.py:323). -/
def runBatch (classify : Nat → List Char → Option (List Char))
    (texts : List (Option (List Char))) (order : List (Nat × List Char)) :
    List (List Char) :=
  writeLoop (fun p => outcomeLabel (classify p.1 p.2)) order
    (List.replicate texts.length NEUTRO)

/-- The completion loop together with the progress state: the result array,
the counter `done`, and the list of reported completed-counts. -/
def progLoop (g : Nat × List Char → List Char)
    (order : List (Nat × List Char))
    (st : List (List Char) × Nat × List Nat) :
    List (List Char) × Nat × List Nat :=
  order.foldl
    (fun st p => (st.1.set p.1 (g p), st.2.1 + 1, st.2.2 ++ [st.2.1 + 1]))
    st

/-- The batch loop of app2.py:322-346 also tracking the progress counter
`done` and the reported completed-counts (app2.py:331,334,344-346): the
initial `st.progress(0)` report followed by one report of `done` after each
completed unit. -/
def runBatchProg (classify : Nat → List Char → Option (List Char))
    (texts : List (Option (List Char))) (order : List (Nat × List Char)) :
    List (List Char) × Nat × List Nat :=
  progLoop (fun p => outcomeLabel (classify p.1 p.2)) order
    (List.replicate texts.length NEUTRO, 0, [0])

/-- The per-index label the specification expects from the batch: `"NEUTRO"`
for null/empty/whitespace cells, otherwise the outcome of that item's
classification unit. -/
def specExpectedLabel (classify : Nat → List Char → Option (List Char))
    (texts : List (Option (List Char))) (i : Nat) : List Char :=
  match texts[i]? with
  | some (some s) =>
    if (pyStrip s).isEmpty then NEUTRO else outcomeLabel (classify i s)
  | _ => NEUTRO

/-! Tweet-id extraction (app2.py:55-71). -/

/-- Case-insensitive literal match: drops the literal `pat` from the front of
`s` (as `re.I` literal matching does), returning the rest. -/
def dropCI : List Char → List Char → Option (List Char)
  | [], s => some s
  | _ :: _, [] => none
  | p :: ps, c :: cs => if c.toLower = p.toLower then dropCI ps cs else none

/-- Try each literal alternative in order; on a literal match run the
continuation `k`, backtracking to the next alternative on failure.  This
implements the alternations/options of `_TWEET_ID_PATTERNS`. -/
def tryPats (k : List Char → Option (List Char)) :
    List (List Char) → List Char → Option (List Char)
  | [], _ => none
  | p :: ps, s =>
    (match dropCI p s with
     | some s1 => k s1
     | none => none) <|> tryPats k ps s

/-- The group `(\d+)` at the end of both patterns: the maximal leading digit
run, required non-empty. -/
def capDigits (s : List Char) : Option (List Char) :=
  let ds := s.takeWhile Char.isDigit
  if ds.isEmpty then none else some ds

/-- The eight literal expansions of `https?://(?:www\.)?(?:x|twitter)`, in
the backtracking order of the regex engine. -/
def schemeHosts : List (List Char) :=
  ["https://www.x".data, "https://www.twitter".data,
   "https://x".data, "https://twitter".data,
   "http://www.x".data, "http://www.twitter".data,
   "http://x".data, "http://twitter".data]

/-- Rest of pattern 1 (app2.py:56) after the scheme/host:
`\.com/[^/]+/status/(\d+)`.  `[^/]+` followed by the literal `/` matches
exactly the maximal non-`/` run, which must be non-empty. -/
def tail1 (s : List Char) : Option (List Char) :=
  match dropCI ".com/".data s with
  | none => none
  | some s1 =>
    let seg := s1.takeWhile (fun c => !(c == '/'))
    if seg.isEmpty then none
    else
      match dropCI "/status/".data (s1.drop seg.length) with
      | none => none
      | some s2 => capDigits s2

/-- Rest of pattern 2 (app2.py:57) after the scheme/host:
`\.com/i/(?:web/)?status/(\d+)`. -/
def tail2 (s : List Char) : Option (List Char) :=
  match dropCI ".com/i/".data s with
  | none => none
  | some s1 => tryPats capDigits ["web/status/".data, "status/".data] s1

/-- Pattern 1 anchored at the current position. -/
def pat1At (s : List Char) : Option (List Char) :=
  tryPats tail1 schemeHosts s

/-- Pattern 2 anchored at the current position. -/
def pat2At (s : List Char) : Option (List Char) :=
  tryPats tail2 schemeHosts s

/-- `rx.search`: try the anchored pattern at every start position, leftmost
first, returning the captured group. -/
def searchPat (patAt : List Char → Option (List Char)) :
    List Char → Option (List Char)
  | [] => patAt []
  | c :: cs => patAt (c :: cs) <|> searchPat patAt cs

/-- `extract_tweet_id_from_url` (app2.py:60-71): falsy input gives `None`;
a stripped all-digit input is returned as is; otherwise the two patterns
are searched in order. -/
def extract_tweet_id_from_url (value : Option (List Char)) :
    Option (List Char) :=
  match value with
  | none => none
  | some v =>
    if v.isEmpty then none
    else
      let s := pyStrip v
      if pyIsdigit s then some s
      else
        match searchPat pat1At s with
        | some ds => some ds
        | none => searchPat pat2At s

/-! Tabular cleanup (app2.py:275-287).  Rows are abstracted to the two
columns the cleanup inspects: `id` and `url` (both nullable). -/

/-- One dataframe row, restricted to the columns used by the cleanup. -/
structure TweetRow where
  rid : Option (List Char)
  url : Option (List Char)
deriving DecidableEq

/-- Pandas `astype(str)` on a nullable cell: `NaN` prints as `"nan"`. -/
def astypeStr : Option (List Char) → List Char
  | some s => s
  | none => "nan".data

/-- `df.drop_duplicates(subset=["url"])` keeping the first occurrence of
each `url` key (pandas also treats two NaN keys as duplicates). -/
def dropDuplicatesByUrl : List (Option (List Char)) → List TweetRow → List TweetRow
  | _, [] => []
  | seen, r :: rs =>
    if r.url ∈ seen then dropDuplicatesByUrl seen rs
    else r :: dropDuplicatesByUrl (r.url :: seen) rs

/-- The cleanup applied to each of the two tables (replies: app2.py:275-279,
quotes: app2.py:283-287): drop the original tweet by id, then deduplicate
by url. -/
def cleanTable (tweetId : List Char) (df : List TweetRow) : List TweetRow :=
  dropDuplicatesByUrl [] (df.filter (fun r => !(astypeStr r.rid == tweetId)))

/-! Worker pool (app2.py:336: `ThreadPoolExecutor(max_workers=5)`). -/

/-- The concurrency bound passed at app2.py:336. -/
def MAX_WORKERS : Nat := 5

/-- Counts of submitted-but-not-started, in-flight, and completed units of
the executor. -/
structure PoolState where
  waiting : Nat
  running : Nat
  finished : Nat
deriving DecidableEq

/-- Modelled from the spec: the semantics of the bounded worker pool
(`concurrent.futures.ThreadPoolExecutor`, external to the repository) as a
step relation — "a fixed-size worker pool of parallel execution units,
bounded at a small constant" (spec section 5): a waiting unit may start only
while fewer than `c` units are in flight, and an in-flight unit may
finish. -/
inductive PoolStep (c : Nat) : PoolState → PoolState → Prop where
  | start (s : PoolState) (hw : 0 < s.waiting) (hr : s.running < c) :
      PoolStep c s (PoolState.mk (s.waiting - 1) (s.running + 1) s.finished)
  | finish (s : PoolState) (hr : 0 < s.running) :
      PoolStep c s (PoolState.mk s.waiting (s.running - 1) (s.finished + 1))

/-! ### Lemmas about the completion loop -/

lemma writeLoop_nil (g : Nat × List Char → List Char) (init : List (List Char)) :
    writeLoop g [] init = init := rfl

lemma writeLoop_cons (g : Nat × List Char → List Char) (p : Nat × List Char)
    (ps : List (Nat × List Char)) (init : List (List Char)) :
    writeLoop g (p :: ps) init = writeLoop g ps (init.set p.1 (g p)) := rfl

lemma writeLoop_length (g : Nat × List Char → List Char) :
    ∀ (ord : List (Nat × List Char)) (init : List (List Char)),
      (writeLoop g ord init).length = init.length
  | [], _ => rfl
  | p :: ps, init => by
    rw [writeLoop_cons, writeLoop_length g ps, List.length_set]

lemma writeLoop_getElem_not_mem (g : Nat × List Char → List Char) :
    ∀ (ord : List (Nat × List Char)) (init : List (List Char)) (i : Nat),
      (∀ p ∈ ord, p.1 ≠ i) → (writeLoop g ord init)[i]? = init[i]?
  | [], _, _, _ => rfl
  | p :: ps, init, i, h => by
    rw [writeLoop_cons,
      writeLoop_getElem_not_mem g ps _ i (fun q hq => h q (List.mem_cons_of_mem p hq)),
      List.getElem?_set_ne (h p (List.mem_cons_self p ps))]

lemma writeLoop_getElem_mem (g : Nat × List Char → List Char) :
    ∀ (ord : List (Nat × List Char)) (init : List (List Char)) (i : Nat) (t : List Char),
      (i, t) ∈ ord → ord.Pairwise (fun a b => a.1 ≠ b.1) → i < init.length →
      (writeLoop g ord init)[i]? = some (g (i, t))
  | [], _, _, _, hmem, _, _ => absurd hmem (List.not_mem_nil _)
  | p :: ps, init, i, t, hmem, hpw, hi => by
    rcases List.mem_cons.1 hmem with heq | htail
    · subst heq
      rw [writeLoop_cons,
        writeLoop_getElem_not_mem g ps _ i
          (fun q hq => Ne.symm ((List.pairwise_cons.1 hpw).1 q hq)),
        List.getElem?_set_self (by simpa using hi)]
    · rw [writeLoop_cons]
      exact writeLoop_getElem_mem g ps _ i t htail (List.pairwise_cons.1 hpw).2
        (by simpa using hi)

/-! ### Lemmas about the eligible items -/

lemma mem_tweets_validos_aux :
    ∀ (ts : List (Option (List Char))) (n i : Nat) (s : List Char),
      (i, s) ∈ tweets_validos_aux n ts ↔
        ∃ k, i = n + k ∧ ts[k]? = some (some s) ∧ (pyStrip s).isEmpty = false
  | [], n, i, s => by simp [tweets_validos_aux]
  | none :: ts, n, i, s => by
    rw [tweets_validos_aux, mem_tweets_validos_aux ts (n + 1) i s]
    constructor
    · rintro ⟨k, hk, hget, hne⟩
      exact ⟨k + 1, by omega, by simpa using hget, hne⟩
    · rintro ⟨k, hk, hget, hne⟩
      match k with
      | 0 => simp at hget
      | k + 1 => exact ⟨k, by omega, by simpa using hget, hne⟩
  | some t :: ts, n, i, s => by
    rw [tweets_validos_aux]
    by_cases hts : (pyStrip t).isEmpty
    · rw [if_pos hts, mem_tweets_validos_aux ts (n + 1) i s]
      constructor
      · rintro ⟨k, hk, hget, hne⟩
        exact ⟨k + 1, by omega, by simpa using hget, hne⟩
      · rintro ⟨k, hk, hget, hne⟩
        match k with
        | 0 =>
          simp only [List.getElem?_cons_zero, Option.some.injEq] at hget
          subst hget
          rw [hts] at hne
          simp at hne
        | k + 1 => exact ⟨k, by omega, by simpa using hget, hne⟩
    · rw [if_neg hts, List.mem_cons, mem_tweets_validos_aux ts (n + 1) i s]
      constructor
      · rintro (heq | ⟨k, hk, hget, hne⟩)
        · rw [Prod.mk.injEq] at heq
          obtain ⟨hi, hs⟩ := heq
          subst hi; subst hs
          exact ⟨0, by omega, by simp, by simpa using hts⟩
        · exact ⟨k + 1, by omega, by simpa using hget, hne⟩
      · rintro ⟨k, hk, hget, hne⟩
        match k with
        | 0 =>
          simp only [List.getElem?_cons_zero, Option.some.injEq] at hget
          subst hget
          exact Or.inl (by rw [Prod.mk.injEq]; exact ⟨by omega, rfl⟩)
        | k + 1 => exact Or.inr ⟨k, by omega, by simpa using hget, hne⟩

lemma mem_tweets_validos (ts : List (Option (List Char))) (i : Nat) (s : List Char) :
    (i, s) ∈ tweets_validos ts ↔
      ts[i]? = some (some s) ∧ (pyStrip s).isEmpty = false := by
  rw [tweets_validos, mem_tweets_validos_aux ts 0 i s]
  constructor
  · rintro ⟨k, hk, hget, hne⟩
    have : i = k := by omega
    subst this
    exact ⟨hget, hne⟩
  · rintro ⟨hget, hne⟩
    exact ⟨i, by omega, hget, hne⟩

lemma tweets_validos_aux_key_ge :
    ∀ (ts : List (Option (List Char))) (n : Nat) (p : Nat × List Char),
      p ∈ tweets_validos_aux n ts → n ≤ p.1 := by
  intro ts n p hp
  obtain ⟨k, hk, _, _⟩ := (mem_tweets_validos_aux ts n p.1 p.2).1 hp
  omega

lemma tweets_validos_aux_keys_lt :
    ∀ (ts : List (Option (List Char))) (n : Nat),
      (tweets_validos_aux n ts).Pairwise (fun a b => a.1 < b.1)
  | [], _ => List.Pairwise.nil
  | none :: ts, n => by
    rw [tweets_validos_aux]
    exact tweets_validos_aux_keys_lt ts (n + 1)
  | some t :: ts, n => by
    rw [tweets_validos_aux]
    by_cases hts : (pyStrip t).isEmpty
    · rw [if_pos hts]
      exact tweets_validos_aux_keys_lt ts (n + 1)
    · rw [if_neg hts]
      refine List.Pairwise.cons ?_ (tweets_validos_aux_keys_lt ts (n + 1))
      intro q hq
      have := tweets_validos_aux_key_ge ts (n + 1) q hq
      simpa using Nat.lt_of_lt_of_le (Nat.lt_succ_self n) this

lemma tweets_validos_keys_ne (ts : List (Option (List Char))) :
    (tweets_validos ts).Pairwise (fun a b => a.1 ≠ b.1) :=
  (tweets_validos_aux_keys_lt ts 0).imp Nat.ne_of_lt

/-- Central helper: for any completion order that is a permutation of the
eligible items, the batch result at every index inside the batch is the
specification's expected label. -/
lemma runBatch_getElem (classify : Nat → List Char → Option (List Char))
    (ts : List (Option (List Char))) (ord : List (Nat × List Char))
    (h : ord.Perm (tweets_validos ts)) (i : Nat) (hi : i < ts.length) :
    (runBatch classify ts ord)[i]? = some (specExpectedLabel classify ts i) := by
  by_cases hc : ∃ s, (i, s) ∈ tweets_validos ts
  · obtain ⟨s, hs⟩ := hc
    have hmem : (i, s) ∈ ord := h.mem_iff.2 hs
    have hpw : ord.Pairwise (fun a b => a.1 ≠ b.1) :=
      (List.Perm.pairwise_iff (fun hab => Ne.symm hab) h).2 (tweets_validos_keys_ne ts)
    obtain ⟨hget, hne⟩ := (mem_tweets_validos ts i s).1 hs
    rw [runBatch, writeLoop_getElem_mem _ ord _ i s hmem hpw
      (by simpa using hi)]
    simp [specExpectedLabel, hget, hne]
  · have hnk : ∀ p ∈ ord, p.1 ≠ i := by
      intro p hp hpi
      apply hc
      refine ⟨p.2, ?_⟩
      have : p ∈ tweets_validos ts := h.mem_iff.1 hp
      rwa [← hpi, Prod.mk.eta]
    have hexp : specExpectedLabel classify ts i = NEUTRO := by
      match hts : ts[i]? with
      | none => simp [specExpectedLabel, hts]
      | some none => simp [specExpectedLabel, hts]
      | some (some s) =>
        by_cases hstrip : (pyStrip s).isEmpty
        · simp [specExpectedLabel, hts, hstrip]
        · exact absurd ((mem_tweets_validos ts i s).2 ⟨hts, by simpa using hstrip⟩)
            (fun hmem => hc ⟨s, hmem⟩)
    rw [runBatch, writeLoop_getElem_not_mem _ ord _ i hnk,
      List.getElem?_replicate_of_lt hi, hexp]

/-- The batch result always has the length of the input batch. -/
lemma runBatch_length (classify : Nat → List Char → Option (List Char))
    (ts : List (Option (List Char))) (ord : List (Nat × List Char)) :
    (runBatch classify ts ord).length = ts.length := by
  rw [runBatch, writeLoop_length]
  exact List.length_replicate _ _

/-! ### Claim theorems for the batch classifier -/

/-- C1: for every input batch of N texts the batch classification returns a
result of exactly N labels (every position defined, since the result is a
total list), and the empty batch yields the empty result with an empty list
of eligible items, i.e. no classification request is ever submitted. -/
theorem c1_length_invariant (classify : Nat → List Char → Option (List Char))
    (ts : List (Option (List Char))) (ord : List (Nat × List Char)) :
    (runBatch classify ts ord).length = ts.length ∧
    runBatch classify [] [] = [] ∧
    tweets_validos [] = [] :=
  ⟨runBatch_length classify ts ord, rfl, rfl⟩

/-- The `["good", "", "bad"]` example batch of the specification. -/
def exTexts : List (Option (List Char)) :=
  [some ("good".data), some ("".data), some ("bad".data)]

/-- The stub classifier of the specification: `"good"` maps to POSITIVO,
`"bad"` to NEGATIVO. -/
def exStub : Nat → List Char → Option (List Char) := fun _ t =>
  some (if t = "good".data then POSITIVO
        else if t = "bad".data then NEGATIVO else NEUTRO)

/-- C2: for every batch and every completion order of the dispatched units
(any permutation of the eligible items), the label at result index `i` is
the classification outcome of the input text at position `i`; in particular
the `["good", "", "bad"]` example with the stub classifier yields
`[POSITIVO, NEUTRO, NEGATIVO]` for every completion order. -/
theorem c2_order_alignment :
    (∀ (classify : Nat → List Char → Option (List Char))
       (ts : List (Option (List Char))) (ord : List (Nat × List Char)),
       ord.Perm (tweets_validos ts) → ∀ i, i < ts.length →
         (runBatch classify ts ord)[i]? = some (specExpectedLabel classify ts i)) ∧
    (∀ ord : List (Nat × List Char), ord.Perm (tweets_validos exTexts) →
       runBatch exStub exTexts ord = [POSITIVO, NEUTRO, NEGATIVO]) := by
  constructor
  · intro classify ts ord h i hi
    exact runBatch_getElem classify ts ord h i hi
  · intro ord h
    apply List.ext_getElem?
    intro n
    match n with
    | 0 =>
      rw [runBatch_getElem exStub exTexts ord h 0 (by decide)]
      decide
    | 1 =>
      rw [runBatch_getElem exStub exTexts ord h 1 (by decide)]
      decide
    | 2 =>
      rw [runBatch_getElem exStub exTexts ord h 2 (by decide)]
      decide
    | n + 3 =>
      have h1 : (runBatch exStub exTexts ord).length = 3 :=
        runBatch_length exStub exTexts ord
      rw [List.getElem?_eq_none (by omega),
        List.getElem?_eq_none (by simp only [List.length_cons, List.length_nil]; omega)]

/-- C2 witness: the example batch evaluated at the reversed completion
order. -/
theorem c2_order_alignment_witness :
    runBatch exStub exTexts [(2, "bad".data), (0, "good".data)] =
      [POSITIVO, NEUTRO, NEGATIVO] :=
  c2_order_alignment.2 [(2, "bad".data), (0, "good".data)] (by decide)

/-- C4: a position whose text is null, empty, or whitespace-only is never
dispatched (it is not an eligible item, so `clasificar_tweet` is never
submitted for it), and for every completion order the result at that index
is the default `"NEUTRO"`. -/
theorem c4_skip_rule (ts : List (Option (List Char))) (i : Nat)
    (h : ts[i]? = some none ∨
         ∃ s, ts[i]? = some (some s) ∧ (pyStrip s).isEmpty = true) :
    (∀ s, (i, s) ∉ tweets_validos ts) ∧
    (∀ (classify : Nat → List Char → Option (List Char))
       (ord : List (Nat × List Char)),
       ord.Perm (tweets_validos ts) → i < ts.length →
       (runBatch classify ts ord)[i]? = some NEUTRO) := by
  have hnot : ∀ s, (i, s) ∉ tweets_validos ts := by
    intro s hs
    obtain ⟨hget, hne⟩ := (mem_tweets_validos ts i s).1 hs
    rcases h with h0 | ⟨s2, hget2, hempty⟩
    · rw [h0] at hget
      simp at hget
    · rw [hget2] at hget
      simp only [Option.some.injEq] at hget
      rw [hget] at hempty
      rw [hempty] at hne
      simp at hne
  refine ⟨hnot, ?_⟩
  intro classify ord hperm hi
  rw [runBatch_getElem classify ts ord hperm i hi]
  have hexp : specExpectedLabel classify ts i = NEUTRO := by
    rcases h with h0 | ⟨s2, hget2, hempty⟩
    · simp [specExpectedLabel, h0]
    · simp [specExpectedLabel, hget2, hempty]
  rw [hexp]

/-- C4 witness: index 1 of the example batch (the empty-string cell)
evaluates to `"NEUTRO"`. -/
theorem c4_skip_rule_witness :
    (runBatch exStub exTexts (tweets_validos exTexts))[1]? = some NEUTRO :=
  (c4_skip_rule exTexts 1 (Or.inr ⟨"".data, by decide, by decide⟩)).2
    exStub (tweets_validos exTexts) (List.Perm.refl _) (by decide)

/-- A classifier whose unit for index 0 raises (`none`) and every other unit
returns POSITIVO; used to witness failure isolation. -/
def exFailStub : Nat → List Char → Option (List Char) := fun i _ =>
  if i = 0 then none else some POSITIVO

/-- C5: if the unit for eligible item `(k, s)` raises, the result at index
`k` is `"NEUTRO"`, the batch still returns a fully populated result of the
input length (the batch call never fails), and every other index holds its
expected label, unaffected by the failure. -/
theorem c5_failure_isolation (classify : Nat → List Char → Option (List Char))
    (ts : List (Option (List Char))) (ord : List (Nat × List Char))
    (k : Nat) (s : List Char)
    (hperm : ord.Perm (tweets_validos ts))
    (hmem : (k, s) ∈ tweets_validos ts)
    (hfail : classify k s = none) :
    (runBatch classify ts ord)[k]? = some NEUTRO ∧
    (runBatch classify ts ord).length = ts.length ∧
    (∀ j, j < ts.length → j ≠ k →
       (runBatch classify ts ord)[j]? = some (specExpectedLabel classify ts j)) := by
  obtain ⟨hget, hne⟩ := (mem_tweets_validos ts k s).1 hmem
  have hk : k < ts.length := by
    by_contra hlt
    rw [List.getElem?_eq_none (by omega)] at hget
    simp at hget
  refine ⟨?_, runBatch_length classify ts ord, ?_⟩
  · rw [runBatch_getElem classify ts ord hperm k hk]
    simp [specExpectedLabel, hget, hne, hfail, outcomeLabel]
  · intro j hj _
    exact runBatch_getElem classify ts ord hperm j hj

/-- C5 witness: in the example batch, a unit that raises for index 0 leaves
`"NEUTRO"` at index 0. -/
theorem c5_failure_isolation_witness :
    (runBatch exFailStub exTexts (tweets_validos exTexts))[0]? = some NEUTRO :=
  (c5_failure_isolation exFailStub exTexts (tweets_validos exTexts) 0 ("good".data)
    (List.Perm.refl _) (by decide) rfl).1

/-! ### Progress reporting -/

lemma progLoop_fst (g : Nat × List Char → List Char) :
    ∀ (ord : List (Nat × List Char)) (init : List (List Char)) (d : Nat)
      (tr : List Nat),
      (progLoop g ord (init, d, tr)).1 = writeLoop g ord init
  | [], _, _, _ => rfl
  | p :: ps, init, d, tr => by
    rw [writeLoop_cons]
    exact progLoop_fst g ps (init.set p.1 (g p)) (d + 1) (tr ++ [d + 1])

lemma progLoop_trace (g : Nat × List Char → List Char) :
    ∀ (ord : List (Nat × List Char)) (init : List (List Char)) (d : Nat)
      (tr : List Nat),
      (progLoop g ord (init, d, tr)).2.2 = tr ++ List.range' (d + 1) ord.length
  | [], _, _, tr => by simp [progLoop]
  | p :: ps, init, d, tr => by
    have ih := progLoop_trace g ps (init.set p.1 (g p)) (d + 1) (tr ++ [d + 1])
    have hstep : (progLoop g (p :: ps) (init, d, tr)).2.2 =
        (progLoop g ps (init.set p.1 (g p), d + 1, tr ++ [d + 1])).2.2 := rfl
    rw [hstep, ih, List.length_cons, List.range'_succ, List.append_assoc]
    rfl

lemma pairwise_lt_range'_one : ∀ (n s : Nat),
    List.Pairwise (fun a b : Nat => a < b) (List.range' s n)
  | 0, _ => List.Pairwise.nil
  | n + 1, s => by
    rw [List.range'_succ]
    refine List.Pairwise.cons ?_ (pairwise_lt_range'_one n (s + 1))
    intro b hb
    obtain ⟨i, _, hi⟩ := List.mem_range'.1 hb
    omega

/-- C7: the reported completed-count starts at 0 and increases by exactly one
per completed unit up to the number of eligible items, hence it is strictly
monotone; and the progress state does not change the labels written into the
result (the result component equals `runBatch`). -/
theorem c7_progress (classify : Nat → List Char → Option (List Char))
    (ts : List (Option (List Char))) (ord : List (Nat × List Char))
    (h : ord.Perm (tweets_validos ts)) :
    (runBatchProg classify ts ord).1 = runBatch classify ts ord ∧
    (runBatchProg classify ts ord).2.2 =
      0 :: List.range' 1 (tweets_validos ts).length ∧
    List.Pairwise (fun a b : Nat => a < b) (runBatchProg classify ts ord).2.2 := by
  have htrace : (runBatchProg classify ts ord).2.2 =
      0 :: List.range' 1 ord.length := by
    rw [runBatchProg, progLoop_trace]
    rfl
  refine ⟨?_, ?_, ?_⟩
  · rw [runBatchProg, runBatch, progLoop_fst]
  · rw [htrace, h.length_eq]
  · rw [htrace]
    refine List.Pairwise.cons ?_ (pairwise_lt_range'_one ord.length 1)
    intro b hb
    obtain ⟨i, _, hi⟩ := List.mem_range'.1 hb
    omega

/-- C7 witness: the trace of the example batch (two eligible items) is
`[0, 1, 2]`. -/
theorem c7_progress_witness :
    (runBatchProg exStub exTexts (tweets_validos exTexts)).2.2 =
      0 :: List.range' 1 (tweets_validos exTexts).length :=
  (c7_progress exStub exTexts (tweets_validos exTexts) (List.Perm.refl _)).2.1

/-! ### Tabular cleanup -/

lemma dropDuplicatesByUrl_invariant :
    ∀ (rs : List TweetRow) (seen : List (Option (List Char))),
      (∀ r ∈ dropDuplicatesByUrl seen rs, r.url ∉ seen) ∧
      (dropDuplicatesByUrl seen rs).Pairwise (fun a b => a.url ≠ b.url)
  | [], _ => ⟨fun r hr => absurd hr (List.not_mem_nil r), List.Pairwise.nil⟩
  | r :: rs, seen => by
    rw [dropDuplicatesByUrl]
    by_cases hseen : r.url ∈ seen
    · rw [if_pos hseen]
      exact dropDuplicatesByUrl_invariant rs seen
    · rw [if_neg hseen]
      obtain ⟨hnot, hpw⟩ := dropDuplicatesByUrl_invariant rs (r.url :: seen)
      refine ⟨?_, ?_⟩
      · intro q hq hqseen
        rcases List.mem_cons.1 hq with rfl | hq2
        · exact hseen hqseen
        · exact hnot q hq2 (List.mem_cons_of_mem r.url hqseen)
      · refine List.Pairwise.cons ?_ hpw
        intro q hq hqurl
        exact hnot q hq (by rw [← hqurl]; exact List.mem_cons_self r.url seen)

lemma dropDuplicatesByUrl_find :
    ∀ (rs : List TweetRow) (seen : List (Option (List Char))) (r : TweetRow),
      r ∈ dropDuplicatesByUrl seen rs →
      rs.find? (fun x => decide (x.url = r.url)) = some r
  | [], _, r, hr => absurd hr (List.not_mem_nil r)
  | q :: rs, seen, r, hr => by
    rw [dropDuplicatesByUrl] at hr
    by_cases hseen : q.url ∈ seen
    · rw [if_pos hseen] at hr
      have hne : q.url ≠ r.url := by
        intro heq
        exact (dropDuplicatesByUrl_invariant rs seen).1 r hr (heq ▸ hseen)
      rw [List.find?_cons_of_neg _ (by simpa using hne)]
      exact dropDuplicatesByUrl_find rs seen r hr
    · rw [if_neg hseen] at hr
      rcases List.mem_cons.1 hr with rfl | hr2
      · rw [List.find?_cons_of_pos _ (by simp)]
      · have hne : q.url ≠ r.url := by
          intro heq
          exact (dropDuplicatesByUrl_invariant rs (q.url :: seen)).1 r hr2
            (heq ▸ List.mem_cons_self q.url seen)
        rw [List.find?_cons_of_neg _ (by simpa using hne)]
        exact dropDuplicatesByUrl_find rs (q.url :: seen) r hr2

/-- C8: after the cleanup of either table (replies or quotes, which apply
the identical operation), any two distinct remaining rows with non-null
`url` have distinct urls — at most one row per URL value — and each
remaining row is the first occurrence of its `url` key among the id-filtered
rows. -/
theorem c8_dedup_by_url (tweetId : List Char) (df : List TweetRow) :
    (cleanTable tweetId df).Pairwise
      (fun a b => ∀ u, a.url = some u → b.url ≠ some u) ∧
    (∀ r ∈ cleanTable tweetId df,
       (df.filter (fun x => !(astypeStr x.rid == tweetId))).find?
         (fun x => decide (x.url = r.url)) = some r) := by
  constructor
  · refine ((dropDuplicatesByUrl_invariant _ []).2).imp ?_
    intro a b hab u hau hbu
    exact hab (by rw [hau, hbu])
  · intro r hr
    exact dropDuplicatesByUrl_find _ [] r hr

/-- Concrete table used to witness the cleanup claims: the original tweet
(id 1), three distinct rows sharing url `u1`, and one row with url `u2`. -/
def exTable : List TweetRow :=
  [TweetRow.mk (some ("1".data)) (some ("u0".data)),
   TweetRow.mk (some ("2".data)) (some ("u1".data)),
   TweetRow.mk (some ("3".data)) (some ("u1".data)),
   TweetRow.mk (some ("4".data)) (some ("u2".data))]

/-- C8 witness: in the concrete table, the row kept for url `u1` is the
first row carrying `u1` after the id filter. -/
theorem c8_dedup_by_url_witness :
    (exTable.filter (fun x => !(astypeStr x.rid == "1".data))).find?
      (fun x => decide (x.url = (TweetRow.mk (some ("2".data)) (some ("u1".data))).url)) =
      some (TweetRow.mk (some ("2".data)) (some ("u1".data))) :=
  (c8_dedup_by_url ("1".data) exTable).2
    (TweetRow.mk (some ("2".data)) (some ("u1".data))) (by decide)

/-! ### Tweet-id extraction lemmas -/

lemma capDigits_good (s ds : List Char) (h : capDigits s = some ds) :
    ds ≠ [] ∧ ds.all Char.isDigit = true := by
  rw [capDigits] at h
  by_cases he : (s.takeWhile Char.isDigit).isEmpty
  · simp [he] at h
  · simp only [he, if_neg, Bool.false_eq_true, not_false_eq_true,
      Option.some.injEq] at h
    subst h
    refine ⟨by simpa [List.isEmpty_iff] using he, ?_⟩
    rw [List.all_eq_true]
    intro c hc
    exact List.mem_takeWhile_imp hc

lemma tryPats_some (k : List Char → Option (List Char)) :
    ∀ (ps : List (List Char)) (s ds : List Char),
      tryPats k ps s = some ds → ∃ t, k t = some ds
  | [], s, ds, h => by simp [tryPats] at h
  | p :: ps, s, ds, h => by
    rw [tryPats] at h
    rcases hd : dropCI p s with _ | s1 <;> rw [hd] at h
    · simp only [Option.none_orElse] at h
      exact tryPats_some k ps s ds h
    · have h2 : (k s1 <|> tryPats k ps s) = some ds := h
      rcases hk : k s1 with _ | x <;> rw [hk] at h2
      · simp only [Option.none_orElse] at h2
        exact tryPats_some k ps s ds h2
      · simp only [Option.some_orElse, Option.some.injEq] at h2
        subst h2
        exact ⟨s1, hk⟩

lemma searchPat_some (patAt : List Char → Option (List Char)) :
    ∀ (s ds : List Char), searchPat patAt s = some ds → ∃ t, patAt t = some ds
  | [], ds, h => ⟨[], h⟩
  | c :: cs, ds, h => by
    rw [searchPat] at h
    rcases hp : patAt (c :: cs) with _ | x <;> rw [hp] at h
    · simp only [Option.none_orElse] at h
      exact searchPat_some patAt cs ds h
    · simp only [Option.some_orElse, Option.some.injEq] at h
      subst h
      exact ⟨c :: cs, hp⟩

lemma tail1_digits (s ds : List Char) (h : tail1 s = some ds) :
    ds ≠ [] ∧ ds.all Char.isDigit = true := by
  rw [tail1] at h
  rcases h1 : dropCI (".com/".data) s with _ | s1 <;> rw [h1] at h
  · simp at h
  · by_cases h2 : (s1.takeWhile (fun c => !(c == '/'))).isEmpty
    · simp [h2] at h
    · simp only [h2, Bool.false_eq_true, if_neg, not_false_eq_true] at h
      rcases h3 : dropCI ("/status/".data)
          (s1.drop (s1.takeWhile (fun c => !(c == '/'))).length) with _ | s2 <;>
        rw [h3] at h
      · simp at h
      · exact capDigits_good s2 ds h

lemma tail2_digits (s ds : List Char) (h : tail2 s = some ds) :
    ds ≠ [] ∧ ds.all Char.isDigit = true := by
  rw [tail2] at h
  rcases h1 : dropCI (".com/i/".data) s with _ | s1 <;> rw [h1] at h
  · simp at h
  · obtain ⟨t, ht⟩ := tryPats_some capDigits _ s1 ds h
    exact capDigits_good t ds ht

lemma pat1At_digits (s ds : List Char) (h : pat1At s = some ds) :
    ds ≠ [] ∧ ds.all Char.isDigit = true := by
  obtain ⟨t, ht⟩ := tryPats_some tail1 schemeHosts s ds h
  exact tail1_digits t ds ht

lemma pat2At_digits (s ds : List Char) (h : pat2At s = some ds) :
    ds ≠ [] ∧ ds.all Char.isDigit = true := by
  obtain ⟨t, ht⟩ := tryPats_some tail2 schemeHosts s ds h
  exact tail2_digits t ds ht

/-- C9: `extract_tweet_id_from_url` returns `None` or a non-empty all-digit
string; `None` and empty input give `None`; an input that is all digits
after stripping is returned stripped, unchanged. -/
theorem c9_extract_tweet_id :
    (∀ v, extract_tweet_id_from_url v = none ∨
       ∃ ds, extract_tweet_id_from_url v = some ds ∧ ds ≠ [] ∧
         ds.all Char.isDigit = true) ∧
    extract_tweet_id_from_url none = none ∧
    extract_tweet_id_from_url (some []) = none ∧
    (∀ s, pyStrip s ≠ [] → (pyStrip s).all Char.isDigit = true →
       extract_tweet_id_from_url (some s) = some (pyStrip s)) := by
  refine ⟨?_, rfl, rfl, ?_⟩
  · intro v
    match v with
    | none => exact Or.inl rfl
    | some s =>
      rw [extract_tweet_id_from_url]
      by_cases hemp : s.isEmpty
      · rw [if_pos hemp]
        exact Or.inl rfl
      · rw [if_neg hemp]
        by_cases hdig : pyIsdigit (pyStrip s)
        · rw [if_pos hdig]
          have hd2 : (!(pyStrip s).isEmpty) = true ∧
              (pyStrip s).all Char.isDigit = true := by
            rw [pyIsdigit, Bool.and_eq_true] at hdig
            exact hdig
          refine Or.inr ⟨pyStrip s, rfl, ?_, hd2.2⟩
          have h1 := hd2.1
          rw [Bool.not_eq_true'] at h1
          exact List.isEmpty_eq_false.1 h1
        · rw [if_neg hdig]
          rcases hp1 : searchPat pat1At (pyStrip s) with _ | ds
          · rcases hp2 : searchPat pat2At (pyStrip s) with _ | ds
            · exact Or.inl rfl
            · obtain ⟨t, ht⟩ := searchPat_some pat2At (pyStrip s) ds hp2
              exact Or.inr ⟨ds, rfl, pat2At_digits t ds ht⟩
          · obtain ⟨t, ht⟩ := searchPat_some pat1At (pyStrip s) ds hp1
            exact Or.inr ⟨ds, rfl, pat1At_digits t ds ht⟩
  · intro s hne hall
    have hs : ¬s.isEmpty := by
      intro hemp
      rw [List.isEmpty_iff] at hemp
      subst hemp
      exact hne rfl
    have hdig : pyIsdigit (pyStrip s) = true := by
      rw [pyIsdigit, Bool.and_eq_true]
      refine ⟨?_, hall⟩
      rw [Bool.not_eq_true']
      exact List.isEmpty_eq_false.2 hne
    rw [extract_tweet_id_from_url, if_neg hs, if_pos hdig]

/-- C9 witness: the input `" 123 "` strips to the all-digit string `"123"`
and is returned unchanged. -/
theorem c9_extract_tweet_id_witness :
    extract_tweet_id_from_url (some (" 123 ".data)) = some (pyStrip (" 123 ".data)) :=
  c9_extract_tweet_id.2.2.2 (" 123 ".data) (by decide) (by decide)

/-! ### The per-item classifier -/

lemma toUpper_eq_of_lower (c : Char)
    (hb : Char.toNat c ≥ 97 ∧ Char.toNat c ≤ 122) :
    Char.toUpper c = Char.ofNat (Char.toNat c - 32) := by
  show (if Char.toNat c ≥ 97 ∧ Char.toNat c ≤ 122 then
      Char.ofNat (Char.toNat c - 32) else c) = _
  rw [if_pos hb]

lemma toUpper_eq_of_not_lower (c : Char)
    (hb : ¬(Char.toNat c ≥ 97 ∧ Char.toNat c ≤ 122)) :
    Char.toUpper c = c := by
  show (if Char.toNat c ≥ 97 ∧ Char.toNat c ≤ 122 then
      Char.ofNat (Char.toNat c - 32) else c) = _
  rw [if_neg hb]

lemma toUpper_isLower_eq_false (c : Char) : (Char.toUpper c).isLower = false := by
  by_cases hb : Char.toNat c ≥ 97 ∧ Char.toNat c ≤ 122
  · rw [toUpper_eq_of_lower c hb]
    obtain ⟨h1, h2⟩ := hb
    revert h1 h2
    generalize Char.toNat c = n
    intro h1 h2
    interval_cases n <;> decide
  · rw [toUpper_eq_of_not_lower c hb]
    by_contra hl
    rw [Bool.not_eq_false, Char.isLower, Bool.and_eq_true,
      decide_eq_true_eq, decide_eq_true_eq] at hl
    exact hb ⟨UInt32.le_toNat_of_le (by decide) hl.1,
      UInt32.toNat_le_of_le (by decide) hl.2⟩

lemma pyUpper_no_lower (s : List Char) :
    ∀ c ∈ pyUpper s, c.isLower = false := by
  intro c hc
  rw [pyUpper] at hc
  obtain ⟨a, _, ha⟩ := List.mem_map.1 hc
  rw [← ha]
  exact toUpper_isLower_eq_false a

lemma take8_upper_nonempty (s : List Char) (h : s ≠ []) :
    ((pyUpper s).take 8).isEmpty = false := by
  have h0 : s.length ≠ 0 := by
    intro h0
    exact h (List.length_eq_zero.1 h0)
  rw [List.isEmpty_eq_false]
  intro hnil
  have hlen := congrArg List.length hnil
  rw [List.length_take, pyUpper, List.length_map, List.length_nil] at hlen
  omega

/-- Exhaustive case analysis of `clasificar_tweet`: every run returns either
the default `"NEUTRO"` or the trimmed, upper-cased, 8-character prefix of a
non-degenerate response. -/
lemma clasificar_tweet_cases (model : Bool) (texto : Option (List Char))
    (resp : Option (Option (List Char))) :
    clasificar_tweet model texto resp = NEUTRO ∨
    ∃ s, resp = some (some s) ∧
      ((pyUpper (pyStrip s)).take 8).isEmpty = false ∧
      clasificar_tweet model texto resp = (pyUpper (pyStrip s)).take 8 := by
  match model, texto, resp with
  | false, _, _ => exact Or.inl rfl
  | true, none, _ => exact Or.inl rfl
  | true, some t, re =>
    by_cases ht : (pyStrip t).isEmpty
    · exact Or.inl (by simp [clasificar_tweet, ht])
    · match re with
      | none => exact Or.inl (by simp [clasificar_tweet, ht])
      | some none => exact Or.inl (by simp [clasificar_tweet, ht, pyStrip, pyUpper])
      | some (some s) =>
        by_cases hl : ((pyUpper (pyStrip s)).take 8).isEmpty
        · exact Or.inl (by simp [clasificar_tweet, ht, hl])
        · refine Or.inr ⟨s, rfl, by simpa using hl, ?_⟩
          simp [clasificar_tweet, ht, hl]

lemma neutro_shape :
    NEUTRO ≠ [] ∧ NEUTRO.length ≤ 8 ∧ ∀ c ∈ NEUTRO, c.isLower = false := by
  decide

/-- C3 counterexample: the raw response `"maybe"` is passed through as
`"MAYBE"`, which is none of the three labels — the classifier does not
collapse unrecognized responses to `"NEUTRO"`. -/
theorem c3_closed_set_counterexample :
    clasificar_tweet true (some ("hola".data)) (some (some ("maybe".data)))
      = "MAYBE".data ∧
    "MAYBE".data ≠ POSITIVO ∧ "MAYBE".data ≠ NEGATIVO ∧ "MAYBE".data ≠ NEUTRO := by
  decide

/-- C3 amended: the per-item classifier normalizes the raw response by
trimming, upper-casing, and taking an 8-character prefix; empty or failed
responses collapse to `"NEUTRO"`, but any other response is returned as
normalized, without being restricted to the closed label set. -/
theorem c3_normalization_amended (model : Bool) (texto : Option (List Char))
    (resp : Option (Option (List Char))) :
    clasificar_tweet model texto resp = NEUTRO ∨
    ∃ s, resp = some (some s) ∧
      clasificar_tweet model texto resp = (pyUpper (pyStrip s)).take 8 := by
  rcases clasificar_tweet_cases model texto resp with h | ⟨s, hs, _, hout⟩
  · exact Or.inl h
  · exact Or.inr ⟨s, hs, hout⟩

/-- C10 counterexample: for the whitespace-only (hence non-empty) response
`" "`, the classifier returns `"NEUTRO"`, not the upper-cased trimmed
8-character prefix of the response (which is empty) as the claim's success
clause demands. -/
theorem c10_whitespace_response_counterexample :
    clasificar_tweet true (some ("hola".data)) (some (some (" ".data))) = NEUTRO ∧
    (pyUpper (pyStrip (" ".data))).take 8 = [] ∧
    (" ".data : List Char) ≠ [] ∧ NEUTRO ≠ ([] : List Char) := by
  decide

/-- C10 amended: every value returned by `clasificar_tweet` is a non-empty
string of at most 8 characters with no lowercase letters; it is `"NEUTRO"`
whenever the model is unavailable, the input is not a non-empty string, the
call raises, or the response text is empty or whitespace-only; and on a
successful call with a response containing non-whitespace it is the
upper-cased, trimmed, 8-character prefix of that response. -/
theorem c10_output_shape_amended (model : Bool) (texto : Option (List Char))
    (resp : Option (Option (List Char))) :
    (clasificar_tweet model texto resp ≠ [] ∧
     (clasificar_tweet model texto resp).length ≤ 8 ∧
     (∀ c ∈ clasificar_tweet model texto resp, c.isLower = false)) ∧
    ((model = false ∨ texto = none ∨
      (∃ t, texto = some t ∧ pyStrip t = []) ∨ resp = none ∨
      resp = some none ∨ (∃ s, resp = some (some s) ∧ pyStrip s = [])) →
      clasificar_tweet model texto resp = NEUTRO) ∧
    (∀ t s, texto = some t → pyStrip t ≠ [] → model = true →
      resp = some (some s) → pyStrip s ≠ [] →
      clasificar_tweet model texto resp = (pyUpper (pyStrip s)).take 8) := by
  refine ⟨?_, ?_, ?_⟩
  · rcases clasificar_tweet_cases model texto resp with h | ⟨s, _, hl, hout⟩
    · rw [h]
      exact neutro_shape
    · rw [hout]
      refine ⟨List.isEmpty_eq_false.1 hl, ?_, ?_⟩
      · rw [List.length_take]
        exact Nat.min_le_left _ _
      · intro c hc
        exact pyUpper_no_lower (pyStrip s) c (List.mem_of_mem_take hc)
  · rintro (rfl | rfl | ⟨t, rfl, ht⟩ | rfl | rfl | ⟨s, rfl, hs⟩)
    · rfl
    · cases model <;> rfl
    · cases model
      · rfl
      · simp [clasificar_tweet, ht]
    · cases model
      · rfl
      · match texto with
        | none => rfl
        | some t =>
          by_cases ht : (pyStrip t).isEmpty <;> simp [clasificar_tweet, ht]
    · cases model
      · rfl
      · match texto with
        | none => rfl
        | some t =>
          by_cases ht : (pyStrip t).isEmpty <;>
            simp [clasificar_tweet, ht, pyStrip, pyUpper]
    · cases model
      · rfl
      · match texto with
        | none => rfl
        | some t =>
          by_cases ht : (pyStrip t).isEmpty <;>
            simp [clasificar_tweet, ht, hs, pyUpper]
  · rintro t s rfl ht rfl rfl hs
    have hne : ¬(pyStrip t).isEmpty = true := by
      rw [Bool.not_eq_true, List.isEmpty_eq_false]
      exact ht
    have hl := take8_upper_nonempty (pyStrip s) hs
    simp [clasificar_tweet, hne, hl]

/-- C10 amended witness: a successful call with the response `" feliz "`
returns its upper-cased trimmed 8-character prefix. -/
theorem c10_output_shape_amended_witness :
    clasificar_tweet true (some ("hola".data)) (some (some (" feliz ".data)))
      = (pyUpper (pyStrip (" feliz ".data))).take 8 :=
  (c10_output_shape_amended true (some ("hola".data))
      (some (some (" feliz ".data)))).2.2
    ("hola".data) (" feliz ".data) rfl (by decide) rfl rfl (by decide)

/-! ### Worker-pool concurrency bound -/

lemma poolStep_bound {c : Nat} {s1 s2 : PoolState} (h : PoolStep c s1 s2)
    (hb : s1.running ≤ c) : s2.running ≤ c := by
  cases h with
  | start hw hr => exact hr
  | finish hr => exact Nat.le_trans (Nat.sub_le _ _) hb

lemma pool_reachable_bound {c : Nat} {s0 s : PoolState}
    (h : Relation.ReflTransGen (PoolStep c) s0 s) (h0 : s0.running ≤ c) :
    s.running ≤ c := by
  induction h with
  | refl => exact h0
  | tail _ hstep ih => exact poolStep_bound hstep ih

/-- C6: starting the pool on the eligible items of any batch with more than
`MAX_WORKERS = 5` of them, every reachable pool state has at most 5 units in
flight — the concurrent-call high-water mark never exceeds 5. -/
theorem c6_concurrency_bound (texts : List (Option (List Char)))
    (s : PoolState)
    (_hN : MAX_WORKERS < (tweets_validos texts).length)
    (h : Relation.ReflTransGen (PoolStep MAX_WORKERS)
          (PoolState.mk (tweets_validos texts).length 0 0) s) :
    s.running ≤ MAX_WORKERS :=
  pool_reachable_bound h (Nat.zero_le _)

/-- A batch of six eligible items, used to exercise the pool bound with more
items than workers. -/
def exSixTexts : List (Option (List Char)) :=
  List.replicate 6 (some ("a".data))

/-- C6 witness: after one `start` step from the initial state of the
six-item batch, the in-flight count (1) respects the bound. -/
theorem c6_concurrency_bound_witness :
    (PoolState.mk ((tweets_validos exSixTexts).length - 1) 1 0).running
      ≤ MAX_WORKERS :=
  c6_concurrency_bound exSixTexts
    (PoolState.mk ((tweets_validos exSixTexts).length - 1) 1 0)
    (by decide)
    (Relation.ReflTransGen.single
      (PoolStep.start (PoolState.mk (tweets_validos exSixTexts).length 0 0)
        (by decide) (by decide)))
